import Mathlib

/-!
Verification of the Gmail connector (scripts/gmail.py).

Python strings are modeled as lists of characters; byte strings as lists of
naturals below 256.  Each definition is a direct translation of the Python
code it is named after; library calls of the Python standard library
(str.split, str.startswith, str.strip, base64.urlsafe_b64encode/decode,
os.path.basename) are embedded as executable functions with the same
semantics at the byte/character level.
-/

/-- A Python string, as a list of characters. -/
abbrev PyStr := List Char

/-- Shorthand to build a `PyStr` from a Lean string literal. -/
def pystr (s : String) : PyStr := s.toList

/-- Python `s.startswith(p)` (here `pyStartsWith p s`). -/
def pyStartsWith : PyStr → PyStr → Bool
  | [], _ => true
  | _ :: _, [] => false
  | p :: ps, c :: cs => p == c && pyStartsWith ps cs

/-- The whitespace characters stripped by Python `str.strip()`. -/
def isPySpace (c : Char) : Bool :=
  c == ' ' || c == '\t' || c == '\n' || c == '\r' || c == Char.ofNat 11 || c == Char.ofNat 12

/-- Python `s.strip()`. -/
def pyStrip (s : PyStr) : PyStr :=
  ((s.dropWhile isPySpace).reverse.dropWhile isPySpace).reverse

/-- Python `s.split(sep)` for a one-character separator `sep`:
splits at every occurrence, keeping empty chunks, and never returns
an empty list of chunks. -/
def splitCh (sep : Char) : PyStr → List PyStr
  | [] => [[]]
  | c :: cs =>
    match splitCh sep cs with
    | [] => [[]]
    | h :: t => if c = sep then [] :: h :: t else (c :: h) :: t

/-- Python `s.split(sep, 1)` for a one-character separator, returned as the
pair (text before the first `sep`, text after it); the second component is
`[]` when `sep` does not occur (callers below only use it when it does). -/
def splitOnce (sep : Char) : PyStr → PyStr × PyStr
  | [] => ([], [])
  | c :: cs =>
    if c = sep then ([], cs)
    else
      let r := splitOnce sep cs
      (c :: r.1, r.2)

/-- Python `raw_message.split('\n\n')[0]`: the text before the first blank
line. -/
def headerSection : PyStr → PyStr
  | [] => []
  | c :: cs =>
    if c = '\n' ∧ cs.head? = some '\n' then []
    else c :: headerSection cs

/-- Lookup in a Python dict built from a list of key/value pairs
(`dict(pairs).get(key, dflt)`): the last pair with the given key wins,
and the lookup compares names exactly (case-sensitively). -/
def dictGet (pairs : List (PyStr × PyStr)) (key dflt : PyStr) : PyStr :=
  match (pairs.filter (fun p => p.1 == key)).getLast? with
  | some p => p.2
  | none => dflt

/-- `headers.get('From', '').split('<')[-1].split('>')[0]`
(gmail.py line 480): the text after the last `<`, truncated at the first
following `>`. -/
def extractBare (s : PyStr) : PyStr :=
  (splitCh '>' ((splitCh '<' s).getLastD [])).headD []

/-- The reply subject rule (gmail.py lines 477-478):
`if not subject.startswith('Re:'): subject = f"Re: subject"`. -/
def applyRe (s : PyStr) : PyStr :=
  if pyStartsWith (pystr "Re:") s then s else pystr "Re: " ++ s

/-- The forward subject rule (gmail.py lines 428-429), applied after
stripping: `if not subject.startswith('Fwd:'): subject = f"Fwd: subject"`. -/
def applyFwd (s : PyStr) : PyStr :=
  if pyStartsWith (pystr "Fwd:") s then s else pystr "Fwd: " ++ s

/-- Base64 encoding of a byte list into 6-bit values
(`base64.urlsafe_b64encode`, with the bijective sextet-to-character
alphabet and the trailing `=` padding elided, neither of which affects
the decoded bytes). -/
def b64encode : List Nat → List Nat
  | [] => []
  | [a] => [a / 4, a % 4 * 16]
  | [a, b] => [a / 4, a % 4 * 16 + b / 16, b % 16 * 4]
  | a :: b :: c :: rest =>
      a / 4 :: (a % 4 * 16 + b / 16) :: (b % 16 * 4 + c / 64) :: c % 64 :: b64encode rest

/-- Base64 decoding of a list of 6-bit values back into bytes
(`base64.urlsafe_b64decode`). -/
def b64decode : List Nat → List Nat
  | [] => []
  | [s0] => [s0 * 4]
  | [s0, s1] => [s0 * 4 + s1 / 16]
  | [s0, s1, s2] => [s0 * 4 + s1 / 16, s1 % 16 * 16 + s2 / 4]
  | s0 :: s1 :: s2 :: s3 :: rest =>
      (s0 * 4 + s1 / 16) :: (s1 % 16 * 16 + s2 / 4) :: (s2 % 4 * 64 + s3) :: b64decode rest

/-- Python truthiness of an optional list-like value (`None` and the empty
string/list are falsy). -/
def pyTruthy {α : Type} : Option (List α) → Bool
  | none => false
  | some l => !l.isEmpty

/-- One MIME part attached to an outbound multipart message:
either a `MIMEText(payload, subtype)` leaf, or a `MIMEBase` attachment
carrying its base64-encoded payload and its `Content-Disposition`
filename. -/
inductive MimePart where
  | text (subtype : PyStr) (payload : List Nat)
  | attachment (mainType subType : PyStr) (payloadB64 : List Nat) (filename : PyStr)
deriving DecidableEq

/-- An attachment argument of `send_message`, with the results of the
library calls the code makes on it: `os.path.isfile(file_path)` and
`mimetypes.guess_type(file_path)` (full content type string and optional
encoding hint), plus the file's bytes. -/
structure AttachmentInput where
  path : PyStr
  isFile : Bool
  guessedType : Option PyStr
  guessedEncoding : Option PyStr
  content : List Nat
deriving DecidableEq

/-- gmail.py lines 372-375: the attachment's content type is the guessed
type, unless no type was guessed or an encoding hint was detected, in which
case `application/octet-stream`. -/
def attachmentContentType (f : AttachmentInput) : PyStr :=
  match f.guessedType, f.guessedEncoding with
  | some t, none => t
  | _, _ => pystr "application/octet-stream"

/-- gmail.py lines 377-386: build one attachment part. The content type is
split at its first `/` into main and sub type, the payload is
base64-encoded (`encoders.encode_base64`), and the disposition filename is
`os.path.basename(file_path)` (the text after the last `/`). -/
def makeAttachmentPart (f : AttachmentInput) : MimePart :=
  let ct := attachmentContentType f
  let ms := splitOnce '/' ct
  MimePart.attachment ms.1 ms.2 (b64encode f.content) ((splitCh '/' f.path).getLastD [])

/-- The arguments of `GmailConnector.send_message`. -/
structure SendArgs where
  toAddr : PyStr
  subject : PyStr
  body : List Nat
  cc : Option PyStr
  bcc : Option PyStr
  html_body : Option (List Nat)
  attachments : Option (List AttachmentInput)
deriving DecidableEq

/-- The outbound MIME message as assembled before serialization:
the top-level `MIMEMultipart` container's subtype, its envelope headers and
its attached parts, in order. -/
structure MimeMessage where
  multipartSubtype : PyStr
  toAddr : PyStr
  subject : PyStr
  cc : Option PyStr
  bcc : Option PyStr
  parts : List MimePart
deriving DecidableEq

/-- `GmailConnector.send_message` (gmail.py lines 352-389), up to the MIME
structure it assembles: the container is
`MIMEMultipart('alternative' if html_body else 'mixed')`; the plain body is
always attached first, the html body is attached when truthy, and each
attachment argument naming an existing file is attached afterwards — all as
direct children of the same top-level container. -/
def send_message_mime (a : SendArgs) : MimeMessage :=
  { multipartSubtype := if pyTruthy a.html_body then pystr "alternative" else pystr "mixed"
    toAddr := a.toAddr
    subject := a.subject
    cc := a.cc
    bcc := a.bcc
    parts :=
      [MimePart.text (pystr "plain") a.body]
        ++ (if pyTruthy a.html_body then [MimePart.text (pystr "html") (a.html_body.getD [])] else [])
        ++ (if pyTruthy a.attachments then
              ((a.attachments.getD []).filter (fun f => f.isFile)).map makeAttachmentPart
            else []) }

/-- The reply message as assembled by `reply_to_message`, up to its
threading headers and MIME structure. -/
structure ReplyMime where
  toAddr : PyStr
  subject : PyStr
  inReplyTo : PyStr
  references : PyStr
  multipartSubtype : PyStr
  parts : List MimePart
deriving DecidableEq

/-- `GmailConnector.reply_to_message` (gmail.py lines 470-499), given the
original message's header list (name/value pairs, from which the code
builds a dict — later duplicates win). Subject gets the `Re:` rule;
the To address is the bare address extracted from `From`; `In-Reply-To`
is the original `Message-ID` (defaulting to the empty string); `References`
is extended by the Message-ID only when the Message-ID is truthy. -/
def reply_to_message_mime (headers : List (PyStr × PyStr)) (body : List Nat)
    (html_body : Option (List Nat)) : ReplyMime :=
  let subject := applyRe (dictGet headers (pystr "Subject") [])
  let from_email := extractBare (dictGet headers (pystr "From") [])
  let message_id := dictGet headers (pystr "Message-ID") []
  let refs0 := dictGet headers (pystr "References") []
  let references :=
    if message_id = [] then refs0
    else if refs0 = [] then message_id
    else refs0 ++ ' ' :: message_id
  { toAddr := from_email
    subject := subject
    inReplyTo := message_id
    references := references
    multipartSubtype := if pyTruthy html_body then pystr "alternative" else pystr "mixed"
    parts :=
      [MimePart.text (pystr "plain") body]
        ++ (if pyTruthy html_body then [MimePart.text (pystr "html") (html_body.getD [])] else []) }

/-- `forward_message`'s header extraction (gmail.py lines 425-426):
the lines of the text before the first blank line that contain a colon,
each split at its first colon into a name/value pair. -/
def fwdHeaderPairs (raw : PyStr) : List (PyStr × PyStr) :=
  (splitCh '\n' (headerSection raw)).filterMap fun line =>
    if ':' ∈ line then some (splitOnce ':' line) else none

/-- `forward_message`'s subject (gmail.py lines 427-429): the stripped
`Subject` header of the raw original message, with the `Fwd:` rule
applied. -/
def forward_subject (raw : PyStr) : PyStr :=
  applyFwd (pyStrip (dictGet (fwdHeaderPairs raw) (pystr "Subject") []))

/-- The `body` field of an inbound Gmail message part: an optional
base64url-encoded `data` entry. -/
structure PartBody where
  data : Option (List Nat)
deriving DecidableEq

/-- One entry of an inbound message payload's `parts` list: its declared
MIME type and its body. -/
structure InPart where
  mimeType : PyStr
  body : PartBody
deriving DecidableEq

/-- The `payload` of an inbound Gmail message: a declared MIME type, an
optional list of sub-parts (`'parts' in message['payload']`), and a
top-level body. -/
structure InPayload where
  mimeType : PyStr
  parts : Option (List InPart)
  body : PartBody
deriving DecidableEq

/-- An inbound Gmail message, with its optional `payload`. -/
structure InMessage where
  payload : Option InPayload
deriving DecidableEq

/-- The loop body of `get_message_body` (gmail.py lines 321-325): a part
contributes its base64url-decoded data exactly when it is declared
text/plain and has data. -/
def textPlainData (part : InPart) : Option (List Nat) :=
  if part.mimeType == pystr "text/plain" then part.body.data.map b64decode
  else none

/-- `GmailConnector.get_message_body` (gmail.py lines 306-331): with no
payload return the empty string; with sub-parts, base64url-decode the data
of every part declared `text/plain` that has data, and join the pieces with
a newline; with no sub-parts, decode the top-level body's data if present. -/
def get_message_body (m : InMessage) : List Nat :=
  match m.payload with
  | none => []
  | some payload =>
    match payload.parts with
    | some parts => List.intercalate [10] (parts.filterMap textPlainData)
    | none =>
        match payload.body.data with
        | some d => b64decode d
        | none => []

/-- Modelled from the spec (section 6, transport boundary): the remote
transport parses a submitted MIME message back into the inbound nested-body
representation, each leaf part reappearing with its declared type and its
payload base64url-encoded in `body.data`. -/
def deliverPart : MimePart → InPart
  | .text subtype payload =>
      { mimeType := pystr "text/" ++ subtype, body := { data := some (b64encode payload) } }
  | .attachment mainType subType payloadB64 _ =>
      { mimeType := mainType ++ '/' :: subType, body := { data := some payloadB64 } }

/-- Modelled from the spec (section 6, transport boundary): the inbound
representation of an outbound message, with the top-level container's
subtype as payload's MIME type and the attached parts as its `parts`. -/
def deliver (m : MimeMessage) : InMessage :=
  { payload := some
      { mimeType := pystr "multipart/" ++ m.multipartSubtype
        parts := some (m.parts.map deliverPart)
        body := { data := none } } }

/-- The fields of a stored Google credential object that
`_get_gmail_service` reads: `valid`, `expired` and whether a refresh token
is present. -/
structure Creds where
  valid : Bool
  expired : Bool
  hasRefreshToken : Bool
deriving DecidableEq

/-- The possible states of the token file as seen by `_get_gmail_service`
(gmail.py lines 165-177): absent, unreadable (`pickle.load` raises),
readable but missing one of the required attributes, or a stored
credential. -/
inductive TokenFile where
  | missing
  | corrupt
  | incomplete
  | stored (c : Creds)
deriving DecidableEq

/-- The credential loaded from the token file (gmail.py lines 165-177):
only a complete stored credential survives; everything else leaves
`creds = None`. -/
def loadedCreds : TokenFile → Option Creds
  | .stored c => some c
  | _ => none

/-- Which externally visible actions `_get_gmail_service` performed:
whether `creds.refresh(Request())` was called, whether the interactive
OAuth flow was run, and whether the token file was rewritten. -/
structure AuthTrace where
  refreshCalled : Bool
  flowRun : Bool
  tokenSaved : Bool
deriving DecidableEq

/-- `GmailConnector._get_gmail_service` (gmail.py lines 152-218), up to the
credential it hands to `build` and the actions it performs.  The outcome of
`creds.refresh` and of the interactive flow are supplied as oracles
(`none` meaning the call raised).  A `none` result models the
`ValueError` raised when the flow fails. -/
def get_gmail_service (file : TokenFile) (refreshOutcome : Option Creds)
    (flowOutcome : Option Creds) : Option Creds × AuthTrace :=
  match loadedCreds file with
  | some c =>
    if c.valid then (some c, ⟨false, false, false⟩)
    else if c.expired && c.hasRefreshToken then
      match refreshOutcome with
      | some c2 => (some c2, ⟨true, false, false⟩)
      | none =>
        match flowOutcome with
        | some c3 => (some c3, ⟨true, true, true⟩)
        | none => (none, ⟨true, true, false⟩)
    else (some c, ⟨false, false, false⟩)
  | none =>
    match flowOutcome with
    | some c3 => (some c3, ⟨false, true, true⟩)
    | none => (none, ⟨false, true, false⟩)

/-- The sequence of token-file contents observable at the atomic boundaries
of the credential save (gmail.py lines 213-214,
`with open(self.token_file, 'wb') as token: pickle.dump(creds, token)`):
the previous contents before the call, the empty file right after
`open(..., 'wb')` truncates it, and the new pickled contents after the
write completes. -/
def save_token_observables (old new : List Nat) : List (List Nat) :=
  [old, [], new]

/-! ## Helper lemmas -/

theorem splitCh_ne_nil (sep : Char) : ∀ l : PyStr, splitCh sep l ≠ []
  | [] => by simp [splitCh]
  | c :: cs => by
    have ih := splitCh_ne_nil sep cs
    rcases h : splitCh sep cs with _ | ⟨a, t⟩
    · exact absurd h ih
    · simp only [splitCh, h]
      split <;> simp

theorem splitCh_not_mem (sep : Char) : ∀ l : PyStr, sep ∉ l → splitCh sep l = [l]
  | [], _ => rfl
  | c :: cs, h => by
    have hc : c ≠ sep := fun he => h (he ▸ List.mem_cons_self c cs)
    have ih := splitCh_not_mem sep cs (fun hm => h (List.mem_cons_of_mem c hm))
    rw [splitCh, ih]
    simp [hc]

theorem splitCh_append_sep (sep : Char) :
    ∀ xs ys : PyStr, splitCh sep (xs ++ sep :: ys) = splitCh sep xs ++ splitCh sep ys
  | [], ys => by
    rcases h : splitCh sep ys with _ | ⟨a, t⟩
    · exact absurd h (splitCh_ne_nil sep ys)
    · simp [splitCh, h]
  | x :: xs, ys => by
    have ih := splitCh_append_sep sep xs ys
    rcases h : splitCh sep xs with _ | ⟨a, t⟩
    · exact absurd h (splitCh_ne_nil sep xs)
    · simp only [List.cons_append, splitCh, ih, h]
      by_cases hx : x = sep <;> simp [hx, ih, h]

theorem getLastD_append_right {α : Type} (A : List α) {B : List α} (d : α) (hB : B ≠ []) :
    (A ++ B).getLastD d = B.getLastD d := by
  rw [List.getLastD_eq_getLast?, List.getLastD_eq_getLast?,
    List.getLast?_append_of_ne_nil _ hB]

theorem exists_last_occ {α : Type} [DecidableEq α] (a : α) :
    ∀ l : List α, a ∈ l → ∃ xs ys, l = xs ++ a :: ys ∧ a ∉ ys
  | [], h => absurd h (List.not_mem_nil a)
  | c :: cs, h => by
    by_cases hm : a ∈ cs
    · obtain ⟨xs, ys, he, hny⟩ := exists_last_occ a cs hm
      exact ⟨c :: xs, ys, by rw [he]; rfl, hny⟩
    · have hac : a = c := by
        rcases List.mem_cons.mp h with h1 | h2
        · exact h1
        · exact absurd h2 hm
      exact ⟨[], cs, by simp [hac], hm⟩

theorem exists_first_occ {α : Type} [DecidableEq α] (a : α) :
    ∀ l : List α, a ∈ l → ∃ xs ys, l = xs ++ a :: ys ∧ a ∉ xs
  | [], h => absurd h (List.not_mem_nil a)
  | c :: cs, h => by
    by_cases hc : c = a
    · exact ⟨[], cs, by simp [hc], List.not_mem_nil a⟩
    · have hm : a ∈ cs := by
        rcases List.mem_cons.mp h with h1 | h2
        · exact absurd h1.symm hc
        · exact h2
      obtain ⟨xs, ys, he, hnx⟩ := exists_first_occ a cs hm
      refine ⟨c :: xs, ys, by rw [he]; rfl, ?_⟩
      intro hmem
      rcases List.mem_cons.mp hmem with h1 | h2
      · exact hc h1.symm
      · exact hnx h2

theorem splitCh_getLastD_of_last_occ (sep : Char) (xs ys : PyStr) (hny : sep ∉ ys) :
    ((splitCh sep (xs ++ sep :: ys)).getLastD []) = ys := by
  rw [splitCh_append_sep, splitCh_not_mem sep ys hny,
    getLastD_append_right _ _ (by simp)]
  rfl

theorem splitCh_headD_of_first_occ (sep : Char) (xs ys : PyStr) (hnx : sep ∉ xs) :
    ((splitCh sep (xs ++ sep :: ys)).headD []) = xs := by
  rw [splitCh_append_sep, splitCh_not_mem sep xs hnx]
  rfl

theorem splitCh_getLastD_length_lt (sep : Char) (l : PyStr) (h : sep ∈ l) :
    ((splitCh sep l).getLastD []).length < l.length := by
  obtain ⟨xs, ys, he, hny⟩ := exists_last_occ sep l h
  rw [he, splitCh_getLastD_of_last_occ sep xs ys hny]
  simp only [List.length_append, List.length_cons]
  omega

theorem splitCh_headD_length_lt (sep : Char) (l : PyStr) (h : sep ∈ l) :
    ((splitCh sep l).headD []).length < l.length := by
  obtain ⟨xs, ys, he, hnx⟩ := exists_first_occ sep l h
  rw [he, splitCh_headD_of_first_occ sep xs ys hnx]
  simp only [List.length_append, List.length_cons]
  omega

theorem splitCh_getLastD_length_le (sep : Char) (l : PyStr) :
    ((splitCh sep l).getLastD []).length ≤ l.length := by
  by_cases h : sep ∈ l
  · exact le_of_lt (splitCh_getLastD_length_lt sep l h)
  · rw [splitCh_not_mem sep l h]
    exact le_refl _

theorem splitCh_headD_length_le (sep : Char) (l : PyStr) :
    ((splitCh sep l).headD []).length ≤ l.length := by
  by_cases h : sep ∈ l
  · exact le_of_lt (splitCh_headD_length_lt sep l h)
  · rw [splitCh_not_mem sep l h]
    exact le_refl _

theorem b64_roundtrip : ∀ l : List Nat, (∀ x ∈ l, x < 256) → b64decode (b64encode l) = l
  | [], _ => rfl
  | [a], _ => by
    simp only [b64encode, b64decode, List.cons.injEq, and_true]
    omega
  | [a, b], h => by
    have hb : b < 256 := h b (by simp)
    simp only [b64encode, b64decode, List.cons.injEq, and_true]
    omega
  | a :: b :: c :: rest, h => by
    have hb : b < 256 := h b (by simp)
    have hc : c < 256 := h c (by simp)
    have ih := b64_roundtrip rest (fun x hx => h x (by simp [hx]))
    simp only [b64encode, b64decode, ih, List.cons.injEq, and_true]
    omega

theorem headerSection_id (l : PyStr) (h : '\n' ∉ l) : headerSection l = l := by
  induction l with
  | nil => rfl
  | cons c cs ih =>
    have hc : c ≠ '\n' := fun he => h (he ▸ List.mem_cons_self c cs)
    simp only [headerSection]
    rw [if_neg (fun hand => hc hand.1), ih (fun hm => h (List.mem_cons_of_mem c hm))]

theorem splitOnce_first (sep : Char) :
    ∀ xs ys : PyStr, sep ∉ xs → splitOnce sep (xs ++ sep :: ys) = (xs, ys)
  | [], ys, _ => by simp [splitOnce]
  | x :: xs, ys, h => by
    have hx : x ≠ sep := fun he => h (he ▸ List.mem_cons_self x xs)
    have ih := splitOnce_first sep xs ys (fun hm => h (List.mem_cons_of_mem x hm))
    simp [splitOnce, hx, ih]

theorem extractBare_length_lt (l : PyStr) (h : '<' ∈ l ∨ '>' ∈ l) :
    (extractBare l).length < l.length := by
  unfold extractBare
  rcases h with h | h
  · calc ((splitCh '>' ((splitCh '<' l).getLastD [])).headD []).length
        ≤ ((splitCh '<' l).getLastD []).length := splitCh_headD_length_le _ _
      _ < l.length := splitCh_getLastD_length_lt '<' l h
  · by_cases h2 : '<' ∈ l
    · calc ((splitCh '>' ((splitCh '<' l).getLastD [])).headD []).length
          ≤ ((splitCh '<' l).getLastD []).length := splitCh_headD_length_le _ _
        _ < l.length := splitCh_getLastD_length_lt '<' l h2
    · rw [splitCh_not_mem '<' l h2]
      exact splitCh_headD_length_lt '>' l h

/-! ## Claims -/

/-- C1, counterexample: an original message with a References header but no
Message-ID header. The reply's References header keeps the original
References value instead of being the empty string, while In-Reply-To is
empty — refuting the claim that both threading headers are empty whenever
the original has no Message-ID. -/
theorem c1_counterexample :
    dictGet [(pystr "References", pystr "<a>")] (pystr "Message-ID") [] = [] ∧
    (reply_to_message_mime [(pystr "References", pystr "<a>")] [] none).inReplyTo = [] ∧
    (reply_to_message_mime [(pystr "References", pystr "<a>")] [] none).references
      = pystr "<a>" ∧
    pystr "<a>" ≠ ([] : PyStr) := by decide

/-- C1, amended: the reply's In-Reply-To is the original Message-ID
(defaulting to empty); its References is the original References with the
Message-ID appended, space-separated, or just the Message-ID when
References is empty; but when the original has no Message-ID, In-Reply-To
is empty while References carries the original References header value
unchanged (empty only when that is also absent). -/
theorem c1_theorem (hs : List (PyStr × PyStr)) (body : List Nat) (hb : Option (List Nat)) :
    (reply_to_message_mime hs body hb).inReplyTo = dictGet hs (pystr "Message-ID") [] ∧
    (dictGet hs (pystr "Message-ID") [] ≠ [] → dictGet hs (pystr "References") [] ≠ [] →
      (reply_to_message_mime hs body hb).references
        = dictGet hs (pystr "References") [] ++ ' ' :: dictGet hs (pystr "Message-ID") []) ∧
    (dictGet hs (pystr "Message-ID") [] ≠ [] → dictGet hs (pystr "References") [] = [] →
      (reply_to_message_mime hs body hb).references = dictGet hs (pystr "Message-ID") []) ∧
    (dictGet hs (pystr "Message-ID") [] = [] →
      (reply_to_message_mime hs body hb).references = dictGet hs (pystr "References") []) := by
  refine ⟨rfl, fun h1 h2 => ?_, fun h1 h2 => ?_, fun h1 => ?_⟩
  · simp [reply_to_message_mime, h1, h2]
  · simp [reply_to_message_mime, h1, h2]
  · simp [reply_to_message_mime, h1]

/-- C1, witness: References accumulation at a concrete input — original
References of two ids plus Message-ID of a third yields the three ids
space-separated. -/
theorem c1_witness :
    (reply_to_message_mime
        [(pystr "References", pystr "<a> <b>"), (pystr "Message-ID", pystr "<c>")]
        [] none).references = pystr "<a> <b> <c>" := by
  have h := (c1_theorem
      [(pystr "References", pystr "<a> <b>"), (pystr "Message-ID", pystr "<c>")]
      [] none).2.1 (by decide) (by decide)
  rw [h]
  decide

/-- C5, counterexample: a From header carrying two bracketed addresses —
the reply target is the last bracketed address, not the first, refuting
the claim that only the first such address is honored. -/
theorem c5_counterexample :
    (reply_to_message_mime
        [(pystr "From", pystr "Alice <a@b.c>, Carol <d@e.f>")] [] none).toAddr
      = pystr "d@e.f" ∧
    pystr "d@e.f" ≠ pystr "a@b.c" := by decide

/-- C5, amended: the reply target is the bare address delimited by the
LAST angle-bracketed group of the original From header — the text after
the last opening bracket, truncated at the first closing bracket after
it; text outside the brackets is discarded. -/
theorem c5_theorem (pre addr suf : PyStr) (b : List Nat)
    (h1 : '<' ∉ addr) (h2 : '>' ∉ addr) (h3 : '<' ∉ suf) :
    (reply_to_message_mime [(pystr "From", pre ++ '<' :: (addr ++ '>' :: suf))] b none).toAddr
      = addr := by
  have hfrom : dictGet [(pystr "From", pre ++ '<' :: (addr ++ '>' :: suf))] (pystr "From") []
      = pre ++ '<' :: (addr ++ '>' :: suf) := rfl
  show extractBare
      (dictGet [(pystr "From", pre ++ '<' :: (addr ++ '>' :: suf))] (pystr "From") []) = addr
  rw [hfrom]
  unfold extractBare
  have hrest : '<' ∉ addr ++ '>' :: suf := by
    intro hm
    rcases List.mem_append.mp hm with h | h
    · exact h1 h
    · rcases List.mem_cons.mp h with h | h
      · exact absurd h (by decide)
      · exact h3 h
  rw [splitCh_getLastD_of_last_occ '<' pre _ hrest,
    splitCh_headD_of_first_occ '>' addr suf h2]

/-- C5, witness: the amended last-bracket rule applied to the concrete
two-address From header yields the second address. -/
theorem c5_witness :
    (reply_to_message_mime
        [(pystr "From", pystr "Bob <one@x.y>, Dana " ++ '<' :: (pystr "two@z.w" ++ '>' :: []))]
        [] none).toAddr = pystr "two@z.w" :=
  c5_theorem (pystr "Bob <one@x.y>, Dana ") (pystr "two@z.w") [] []
    (by decide) (by decide) (by decide)

/-- C6: subject prefixing is idempotent — reply adds the Re: prefix only
when the subject does not already start with Re: (case-sensitive exact
check), so an already-prefixed subject is unchanged; forward applies the
Fwd: prefix under the same rule; and the reply/forward builders apply
exactly these transforms to the looked-up Subject. -/
theorem c6_theorem :
    (∀ s : PyStr, pyStartsWith (pystr "Re:") s = true → applyRe s = s) ∧
    (∀ s : PyStr, pyStartsWith (pystr "Re:") s = false → applyRe s = pystr "Re: " ++ s) ∧
    (∀ s : PyStr, applyRe (applyRe s) = applyRe s) ∧
    (∀ s : PyStr, pyStartsWith (pystr "Fwd:") s = true → applyFwd s = s) ∧
    (∀ s : PyStr, pyStartsWith (pystr "Fwd:") s = false → applyFwd s = pystr "Fwd: " ++ s) ∧
    (∀ s : PyStr, applyFwd (applyFwd s) = applyFwd s) ∧
    (∀ (hs : List (PyStr × PyStr)) (b : List Nat) (hb : Option (List Nat)),
      (reply_to_message_mime hs b hb).subject = applyRe (dictGet hs (pystr "Subject") [])) ∧
    (∀ raw : PyStr, forward_subject raw
        = applyFwd (pyStrip (dictGet (fwdHeaderPairs raw) (pystr "Subject") []))) := by
  have hre : ∀ s : PyStr, pyStartsWith (pystr "Re:") (pystr "Re: " ++ s) = true :=
    fun s => rfl
  have hfwd : ∀ s : PyStr, pyStartsWith (pystr "Fwd:") (pystr "Fwd: " ++ s) = true :=
    fun s => rfl
  refine ⟨fun s h => by simp [applyRe, h], fun s h => by simp [applyRe, h], ?_,
    fun s h => by simp [applyFwd, h], fun s h => by simp [applyFwd, h], ?_,
    fun hs b hb => rfl, fun raw => rfl⟩
  · intro s
    by_cases h : pyStartsWith (pystr "Re:") s = true
    · simp [applyRe, h]
    · have h2 : pyStartsWith (pystr "Re:") s = false := by
        revert h
        cases pyStartsWith (pystr "Re:") s <;> simp
      simp [applyRe, h2, hre s]
  · intro s
    by_cases h : pyStartsWith (pystr "Fwd:") s = true
    · simp [applyFwd, h]
    · have h2 : pyStartsWith (pystr "Fwd:") s = false := by
        revert h
        cases pyStartsWith (pystr "Fwd:") s <;> simp
      simp [applyFwd, h2, hfwd s]

/-- C6, witness: an already-prefixed subject stays unchanged and a bare
subject gets the prefix, at concrete inputs. -/
theorem c6_witness :
    applyRe (pystr "Re: X") = pystr "Re: X" ∧ applyRe (pystr "X") = pystr "Re: X" ∧
    applyFwd (pystr "Fwd: X") = pystr "Fwd: X" := by
  refine ⟨c6_theorem.1 _ (by decide), ?_, c6_theorem.2.2.2.1 _ (by decide)⟩
  have h := c6_theorem.2.1 (pystr "X") (by decide)
  rw [h]
  decide

/-- C7, counterexample: a header stored under the name SUBJECT is not
found when the reply engine looks up Subject — the dict lookup is
case-sensitive, refuting the claimed case-insensitive lookup. -/
theorem c7_counterexample :
    (reply_to_message_mime [(pystr "SUBJECT", pystr "Hello")] [] none).subject
      = pystr "Re: " ∧
    pystr "Re: " ≠ pystr "Re: Hello" := by decide

/-- C7, amended: header extraction is total and preserves values with
embedded colons (a forward header line is split only at its first colon),
but header lookup is case-sensitive: a lookup whose exact name matches no
stored pair returns the default. -/
theorem c7_theorem :
    (∀ name v : PyStr, ':' ∉ name → '\n' ∉ name → '\n' ∉ v →
      fwdHeaderPairs (name ++ ':' :: v) = [(name, v)]) ∧
    (∀ (hs : List (PyStr × PyStr)) (key dflt : PyStr),
      (∀ p ∈ hs, p.1 ≠ key) → dictGet hs key dflt = dflt) := by
  constructor
  · intro name v h1 h2 h3
    have hnl : '\n' ∉ name ++ ':' :: v := by
      intro hm
      rcases List.mem_append.mp hm with h | h
      · exact h2 h
      · rcases List.mem_cons.mp h with h | h
        · exact absurd h (by decide)
        · exact h3 h
    have hcol : ':' ∈ name ++ ':' :: v :=
      List.mem_append.mpr (Or.inr (List.mem_cons_self _ _))
    unfold fwdHeaderPairs
    rw [headerSection_id _ hnl, splitCh_not_mem '\n' _ hnl]
    simp [List.filterMap, hcol, splitOnce_first ':' name v h1]
  · intro hs key dflt hne
    unfold dictGet
    have hf : hs.filter (fun p => p.1 == key) = [] := by
      rw [List.filter_eq_nil_iff]
      intro p hp
      simp [hne p hp]
    rw [hf]
    rfl

/-- C7, witness: a forward header line with an embedded colon in its value
is parsed into one name/value pair, and a lookup under a differently-cased
name returns the default (here the empty string). -/
theorem c7_witness :
    fwdHeaderPairs (pystr "Subject" ++ ':' :: pystr " Plan: phase 2")
      = [(pystr "Subject", pystr " Plan: phase 2")] ∧
    dictGet [(pystr "SUBJECT", pystr "Hello")] (pystr "Subject") [] = [] := by
  exact ⟨c7_theorem.1 _ _ (by decide) (by decide) (by decide),
    c7_theorem.2 _ _ _ (by decide)⟩

/-- C10, counterexample: a From value containing an opening bracket but no
closing bracket is still altered by the bare-address extraction, refuting
the clause that the rule only alters values containing both brackets. -/
theorem c10_counterexample :
    (reply_to_message_mime [(pystr "From", pystr "a<b")] [] none).toAddr = pystr "b" ∧
    extractBare (pystr "a<b") = pystr "b" ∧
    '>' ∉ pystr "a<b" ∧
    pystr "b" ≠ pystr "a<b" := by decide

/-- C10, amended: a From header with no angle bracket at all passes
through the extraction unchanged (and the extraction is a total function),
and the extraction alters exactly those values containing an opening or a
closing bracket; the reply target is this extraction of the From header. -/
theorem c10_theorem (l : PyStr) :
    (extractBare l = l ↔ '<' ∉ l ∧ '>' ∉ l) ∧
    (∀ b : List Nat, (reply_to_message_mime [(pystr "From", l)] b none).toAddr
      = extractBare l) := by
  constructor
  · constructor
    · intro he
      constructor
      · intro hm
        have hlt := extractBare_length_lt l (Or.inl hm)
        rw [he] at hlt
        exact lt_irrefl _ hlt
      · intro hm
        have hlt := extractBare_length_lt l (Or.inr hm)
        rw [he] at hlt
        exact lt_irrefl _ hlt
    · rintro ⟨h1, h2⟩
      unfold extractBare
      rw [splitCh_not_mem '<' l h1]
      show (splitCh '>' l).headD [] = l
      rw [splitCh_not_mem '>' l h2]
      rfl
  · intro b
    rfl

/-- The concrete attachment used in the C2 statements: an existing file
with a guessed pdf content type. -/
def c2Attachment : AttachmentInput :=
  { path := pystr "docs/report.pdf", isFile := true,
    guessedType := some (pystr "application/pdf"), guessedEncoding := none,
    content := [1, 2] }

/-- The concrete send arguments used in the C2 statements: an html body
and one attachment together. -/
def c2Args : SendArgs :=
  { toAddr := pystr "r@x.y", subject := pystr "s", body := [104, 105],
    cc := none, bcc := none, html_body := some [60, 112, 62],
    attachments := some [c2Attachment] }

/-- C2, counterexample: a message with an html body and an attachment.
The top-level container is multipart alternative — not mixed — and the
attachment is attached as a direct child of that alternative container,
refuting the claim that attachments are always siblings of a mixed
container kept apart from the alternative group. -/
theorem c2_counterexample :
    pyTruthy c2Args.attachments = true ∧
    (send_message_mime c2Args).multipartSubtype = pystr "alternative" ∧
    pystr "alternative" ≠ pystr "mixed" ∧
    makeAttachmentPart c2Attachment ∈ (send_message_mime c2Args).parts := by decide

/-- C2, amended: the encoder always builds one top-level multipart
container — alternative when the html body is truthy, mixed otherwise
(so a plain-only message is a mixed container holding one text part,
not a bare part); the plain body, the optional html body, and every
attachment naming an existing file are all attached as direct children of
that single container, in that order. -/
theorem c2_theorem (a : SendArgs) :
    (send_message_mime a).multipartSubtype
      = (if pyTruthy a.html_body then pystr "alternative" else pystr "mixed") ∧
    (send_message_mime a).parts
      = [MimePart.text (pystr "plain") a.body]
        ++ (if pyTruthy a.html_body then [MimePart.text (pystr "html") (a.html_body.getD [])]
            else [])
        ++ (if pyTruthy a.attachments then
              ((a.attachments.getD []).filter (fun f => f.isFile)).map makeAttachmentPart
            else []) ∧
    (∀ f ∈ a.attachments.getD [], f.isFile = true → pyTruthy a.attachments = true →
      makeAttachmentPart f ∈ (send_message_mime a).parts) := by
  refine ⟨rfl, rfl, ?_⟩
  intro f hf hfile htr
  have hm : makeAttachmentPart f
      ∈ ((a.attachments.getD []).filter (fun g => g.isFile)).map makeAttachmentPart :=
    List.mem_map_of_mem _ (List.mem_filter.mpr ⟨hf, hfile⟩)
  show makeAttachmentPart f
      ∈ [MimePart.text (pystr "plain") a.body]
        ++ (if pyTruthy a.html_body then [MimePart.text (pystr "html") (a.html_body.getD [])]
            else [])
        ++ (if pyTruthy a.attachments then
              ((a.attachments.getD []).filter (fun g => g.isFile)).map makeAttachmentPart
            else [])
  rw [htr]
  exact List.mem_append.mpr (Or.inr (by simpa using hm))

/-- C2, witness: the amended attachment-membership clause at the concrete
html-plus-attachment input. -/
theorem c2_witness :
    makeAttachmentPart c2Attachment ∈ (send_message_mime c2Args).parts :=
  (c2_theorem c2Args).2.2 c2Attachment (by decide) (by decide) (by decide)

/-- C3: round trip — encoding a message carrying only a plain body and
decoding the delivered message's plain-text content returns exactly that
body (at the byte level, with no newline normalization even needed). -/
theorem c3_theorem (toA subj : PyStr) (cc bcc : Option PyStr) (body : List Nat)
    (h : ∀ x ∈ body, x < 256) :
    get_message_body (deliver (send_message_mime
        { toAddr := toA, subject := subj, body := body, cc := cc, bcc := bcc,
          html_body := none, attachments := none })) = body := by
  show List.intercalate [10] [b64decode (b64encode body)] = body
  show b64decode (b64encode body) ++ [] = body
  rw [List.append_nil, b64_roundtrip body h]

/-- C3, witness: the round trip at the concrete plain body "hello"
(its utf-8 bytes). -/
theorem c3_witness :
    get_message_body (deliver (send_message_mime
        { toAddr := pystr "to@x.y", subject := pystr "hi",
          body := [104, 101, 108, 108, 111], cc := none, bcc := none,
          html_body := none, attachments := none })) = [104, 101, 108, 108, 111] :=
  c3_theorem _ _ _ _ _ (by decide)

/-- The concrete inbound message used in the C4 counterexample: a single
top-level body declared image/png, with data present and no sub-parts. -/
def c4Message : InMessage :=
  ⟨some { mimeType := pystr "image/png", parts := none,
          body := { data := some (b64encode [1, 2, 3]) } }⟩

/-- C4, counterexample: an inbound message whose only content is a
top-level body declared image/png — no text/plain content exists anywhere
in the structure, yet the decoder returns its decoded bytes rather than
the empty string, refuting the claimed empty-string clause. -/
theorem c4_counterexample :
    c4Message = ⟨some ⟨pystr "image/png", none, ⟨some (b64encode [1, 2, 3])⟩⟩⟩ ∧
    pystr "image/png" ≠ pystr "text/plain" ∧
    get_message_body c4Message = [1, 2, 3] ∧
    ([1, 2, 3] : List Nat) ≠ [] := by decide

/-- C4, amended: with sub-parts present the decoder returns exactly the
sub-parts declared text/plain that have data, kept in order, each part's
data base64url-decoded independently, joined by a single newline; it is
total and returns the empty string when there is no payload, when
sub-parts are present but none is a text/plain part with data, or when
there are no sub-parts and the top-level body has no data; with sub-parts
it ignores non-text/plain parts (filtering them away does not change the
result); with no sub-parts it decodes the top-level body whenever data is
present, regardless of the declared top-level MIME type. -/
theorem c4_theorem :
    (∀ m : InMessage, m.payload = none → get_message_body m = []) ∧
    (∀ (m : InMessage) (p : InPayload) (l : List InPart),
      m.payload = some p → p.parts = some l →
      get_message_body m
        = List.intercalate [10]
            ((l.filter fun part =>
                part.mimeType == pystr "text/plain" && part.body.data.isSome).map
              fun part => b64decode (part.body.data.getD []))) ∧
    (∀ (m : InMessage) (p : InPayload) (l : List InPart),
      m.payload = some p → p.parts = some l →
      (∀ part ∈ l, part.mimeType = pystr "text/plain" → part.body.data = none) →
      get_message_body m = []) ∧
    (∀ (m : InMessage) (p : InPayload), m.payload = some p → p.parts = none →
      p.body.data = none → get_message_body m = []) ∧
    (∀ (p : InPayload) (d : List Nat), p.parts = none → p.body.data = some d →
      get_message_body ⟨some p⟩ = b64decode d) ∧
    (∀ (p : InPayload) (l : List InPart), p.parts = some l →
      get_message_body ⟨some ⟨p.mimeType,
          some (l.filter fun part => part.mimeType == pystr "text/plain"), p.body⟩⟩
        = get_message_body ⟨some p⟩) := by
  have hjoin : ∀ ll : List InPart,
      ll.filterMap textPlainData
        = ((ll.filter fun part =>
              part.mimeType == pystr "text/plain" && part.body.data.isSome).map
            fun part => b64decode (part.body.data.getD [])) := by
    intro ll
    induction ll with
    | nil => rfl
    | cons a t ih =>
      rcases hb : (a.mimeType == pystr "text/plain") with _ | _
      · have hfa : textPlainData a = none := by simp [textPlainData, hb]
        rw [List.filterMap_cons_none hfa, List.filter_cons_of_neg (by simp [hb]), ih]
      · cases hd : a.body.data with
        | none =>
          have hfa : textPlainData a = none := by simp [textPlainData, hb, hd]
          rw [List.filterMap_cons_none hfa,
            List.filter_cons_of_neg (by simp [hb, hd]), ih]
        | some d =>
          have hfa : textPlainData a = some (b64decode d) := by
            simp [textPlainData, hb, hd]
          rw [List.filterMap_cons_some hfa,
            List.filter_cons_of_pos (by simp [hb, hd]), List.map_cons, ih, hd]
          rfl
  refine ⟨?_, ?_, ?_, ?_, ?_, ?_⟩
  · intro m hm
    simp [get_message_body, hm]
  · intro m p l hm hp
    simp only [get_message_body, hm, hp]
    rw [hjoin l]
  · intro m p l hm hp hall
    have hnil : l.filterMap textPlainData = [] := by
      rw [List.filterMap_eq_nil_iff]
      intro part hpart
      by_cases ht : part.mimeType = pystr "text/plain"
      · simp [textPlainData, ht, hall part hpart ht]
      · simp [textPlainData, ht]
    simp only [get_message_body, hm, hp, hnil]
    rfl
  · intro m p hm hp hd
    simp [get_message_body, hm, hp, hd]
  · intro p d hp hd
    simp [get_message_body, hp, hd]
  · intro p l hp
    simp only [get_message_body, hp]
    have hfm : ∀ ll : List InPart,
        ((ll.filter fun part => part.mimeType == pystr "text/plain").filterMap textPlainData)
          = ll.filterMap textPlainData := by
      intro ll
      induction ll with
      | nil => rfl
      | cons a t ih =>
        rcases hb : (a.mimeType == pystr "text/plain") with _ | _
        · have hfa : textPlainData a = none := by simp [textPlainData, hb]
          rw [List.filter_cons_of_neg (by simp [hb]),
            List.filterMap_cons_none hfa, ih]
        · cases hd : a.body.data with
          | none =>
            have hfa : textPlainData a = none := by simp [textPlainData, hb, hd]
            rw [List.filter_cons_of_pos (by simp [hb]),
              List.filterMap_cons_none hfa, List.filterMap_cons_none hfa, ih]
          | some d =>
            have hfa : textPlainData a = some (b64decode d) := by
              simp [textPlainData, hb, hd]
            rw [List.filter_cons_of_pos (by simp [hb]),
              List.filterMap_cons_some hfa, List.filterMap_cons_some hfa, ih]
    rw [hfm]

/-- C4, witness: a message with two text/plain sub-parts carrying the
bytes of "foo" and "bar" around one non-text part decodes to the bytes of
"foo", a single newline, then "bar"; and sub-parts with no text/plain data
as well as a no-parts message with no data decode to the empty string. -/
theorem c4_witness :
    get_message_body ⟨some ⟨pystr "multipart/mixed",
        some [⟨pystr "text/plain", ⟨some (b64encode [102, 111, 111])⟩⟩,
              ⟨pystr "image/png", ⟨some (b64encode [9])⟩⟩,
              ⟨pystr "text/plain", ⟨some (b64encode [98, 97, 114])⟩⟩], ⟨none⟩⟩⟩
      = [102, 111, 111, 10, 98, 97, 114] ∧
    get_message_body ⟨some ⟨pystr "multipart/mixed",
        some [⟨pystr "image/png", ⟨some [1]⟩⟩], ⟨none⟩⟩⟩ = [] ∧
    get_message_body ⟨some ⟨pystr "multipart/related", none, ⟨none⟩⟩⟩ = [] :=
  ⟨(c4_theorem.2.1 _ _ _ rfl rfl).trans (by decide),
    c4_theorem.2.2.1 _ _ _ rfl rfl (by decide),
    c4_theorem.2.2.2.1 _ _ rfl rfl rfl⟩

/-- C8: a stored credential whose access token is valid (non-expired) is
returned unchanged by the authentication routine, with no refresh call, no
interactive flow, and no rewrite of the token file. -/
theorem c8_theorem (c : Creds) (refreshOutcome flowOutcome : Option Creds)
    (h : c.valid = true) :
    get_gmail_service (.stored c) refreshOutcome flowOutcome
      = (some c, ⟨false, false, false⟩) := by
  simp [get_gmail_service, loadedCreds, h]

/-- C8, witness: the fast path at a concrete valid stored credential. -/
theorem c8_witness :
    get_gmail_service (.stored ⟨true, false, true⟩) none none
      = (some ⟨true, false, true⟩, ⟨false, false, false⟩) :=
  c8_theorem ⟨true, false, true⟩ none none rfl

/-- C9, counterexample: during the credential save, a state that is
neither the previous contents nor the new contents — the truncated empty
file — is observable, refuting the claim that the save is an atomic
write-then-rename that never exposes a truncated store. -/
theorem c9_counterexample :
    [] ∈ save_token_observables [1] [2] ∧
    ([] : List Nat) ≠ [1] ∧ ([] : List Nat) ≠ [2] := by decide

/-- C9, amended: the credential save writes the token file in place —
it starts from the previous contents, truncates the file to empty on
open, and ends with the new contents once the write completes (the scoped
with-block guarantees the close); it is not a write-then-rename, so the
empty truncated state is observable in between. -/
theorem c9_theorem (old new : List Nat) :
    (save_token_observables old new).head? = some old ∧
    (save_token_observables old new).getLast? = some new ∧
    [] ∈ save_token_observables old new :=
  ⟨rfl, rfl, by simp [save_token_observables]⟩

/-- C9, witness: the amended in-place-save description at concrete old and
new contents. -/
theorem c9_witness :
    (save_token_observables [7] [8]).head? = some [7] ∧
    (save_token_observables [7] [8]).getLast? = some [8] ∧
    [] ∈ save_token_observables [7] [8] :=
  c9_theorem [7] [8]

/-- C10, witness: a bare address with no angle brackets passes through the
extraction unchanged. -/
theorem c10_witness :
    extractBare (pystr "alice@example.com") = pystr "alice@example.com" :=
  (c10_theorem (pystr "alice@example.com")).1.mpr ⟨by decide, by decide⟩
